import Mathlib

/-!
Verification of the local photo/album data-consistency layer of the
myphotoapp repository. The definitions below are a shallow embedding of
the TypeScript functions that read, transform and write the two persisted
JSON collections (`photos` and `albums`): the gallery screen's
`deleteSelected` and `createOrUpdateAlbum`, the photo-detail screen's
`saveCaption`, `toggleFavorite`, `deletePhoto` and load effect, the camera
screen's `savePhoto`, and the albums screen's `getPhotosForAlbum` and
create-album handler. Collections are Lean lists in JSON-array order;
JavaScript `string | undefined` fields are `Option String`, and the
JavaScript truthiness coercions that the source relies on (`||`,
`|| undefined`, `x || ''`) are embedded explicitly.
-/

namespace PhotoApp

/-- Photo record as declared in the source (`type Photo` in gallery.tsx and
photo/[id].tsx): `favorite?` is an optional boolean. -/
structure Photo where
  id : String
  uri : String
  createdAt : String
  caption : String
  favorite : Option Bool
deriving DecidableEq

/-- Album record as declared in gallery.tsx (`type Album`): `coverPhotoId?`
is an optional string. -/
structure Album where
  id : String
  name : String
  createdAt : String
  photoIds : List String
  coverPhotoId : Option String
deriving DecidableEq

/-- Album record as declared in the albums screen (`type AppAlbum` in
photo/[id].tsx): no `createdAt` and no `coverPhotoId` field. -/
structure AppAlbum where
  id : String
  name : String
  photoIds : List String
deriving DecidableEq

/-- Truthiness of a JavaScript `string | undefined` value: `undefined` and
the empty string are falsy, every other string is truthy. -/
def jsTruthy : Option String → Bool
  | none => false
  | some s => s != ""

/-- Embedding of the JavaScript expression `a || b` at type
`string | undefined`: yields `a` when `a` is truthy, otherwise `b`. -/
def jsOr (a b : Option String) : Option String :=
  if jsTruthy a then a else b

/-- Embedding of the JavaScript expression `e || undefined`: a falsy value
(here `undefined` or the empty string) becomes `undefined`. -/
def jsOrUndefined (a : Option String) : Option String :=
  if jsTruthy a then a else none

/-- Embedding of JavaScript `String.prototype.toLowerCase` for the ASCII
names this app produces: lowercases each character. -/
def jsToLower (s : String) : String :=
  ⟨s.data.map Char.toLower⟩

/-- Embedding of JavaScript `String.prototype.trim`: strips whitespace from
both ends of the string. -/
def jsTrim (s : String) : String :=
  ⟨((s.data.dropWhile Char.isWhitespace).reverse.dropWhile Char.isWhitespace).reverse⟩

/-- Embedding of JavaScript `Array.prototype.findIndex`: index of the first
element satisfying the predicate, `undefined` (here `none`) when there is
none. -/
def jsFindIndex {α : Type} (p : α → Bool) : List α → Option Nat
  | [] => none
  | a :: rest => if p a then some 0 else (jsFindIndex p rest).map (fun i => i + 1)

/-- Gallery `deleteSelected`, photos part (gallery.tsx line 231): the new
photos collection is `allPhotos.filter(photo => !selectedIds.has(photo.id))`,
written back to the `photos` key. -/
def deleteSelectedPhotos (deletedIds : List String) (photos : List Photo) : List Photo :=
  photos.filter (fun photo => !(deletedIds.contains photo.id))

/-- Body of the `albums.map` in gallery `deleteSelected` (gallery.tsx lines
235-241). The spread keeps all fields; `photoIds` is filtered; the cover is
recomputed when `deletedIds.includes(album.coverPhotoId || '')`: the source
expression `album.coverPhotoId || ''` evaluates to `album.coverPhotoId.getD ""`
(an absent or empty cover both give `''`). The replacement cover is
`album.photoIds.find(id => !deletedIds.includes(id)) || undefined`, a search
over the original `photoIds` with a falsy result coerced to `undefined`. -/
def cascadeAlbum (deletedIds : List String) (album : Album) : Album :=
  { album with
    photoIds := album.photoIds.filter (fun id => !(deletedIds.contains id))
    coverPhotoId :=
      if deletedIds.contains (album.coverPhotoId.getD "") then
        jsOrUndefined (album.photoIds.find? (fun id => !(deletedIds.contains id)))
      else
        album.coverPhotoId }

/-- Gallery `deleteSelected`, albums part (gallery.tsx lines 235-241): maps
`cascadeAlbum` over every album, then drops albums whose `photoIds` became
empty (`.filter(album => album.photoIds.length > 0)`). -/
def deleteSelectedAlbums (deletedIds : List String) (albums : List Album) : List Album :=
  (albums.map (cascadeAlbum deletedIds)).filter (fun album => album.photoIds.length > 0)

/-- Photo-detail `deletePhoto` (photo/[id].tsx lines 78-93): deletes the
image file, filters the photo out of the `photos` collection and writes that
collection back. The function never reads or writes the `albums` key, so the
albums collection after the operation is exactly the albums collection
before it; the pair returned here is the post-state of both collections. -/
def deletePhotoDetail (pid : String) (photos : List Photo) (albums : List Album) :
    List Photo × List Album :=
  (photos.filter (fun p => p.id != pid), albums)

/-- Camera `savePhoto` (camera screen in photo/[id].tsx, lines 650-661):
`photos.push(newPhoto)` on the loaded collection, then save — an append. -/
def savePhoto (newPhoto : Photo) (photos : List Photo) : List Photo :=
  photos ++ [newPhoto]

/-- Outcome of a photo-detail update operation as the caller sees it:
`persisted` is the array passed to `AsyncStorage.setItem('photos', ...)` and
`wrote` records whether that write was issued. -/
structure UpdateRun where
  persisted : List Photo
  wrote : Bool
deriving DecidableEq

/-- Photo-detail `saveCaption` (photo/[id].tsx lines 42-59): maps over the
loaded collection replacing the caption of every record whose id matches,
then unconditionally calls `setItem` and alerts success. There is no
id-existence check and no NotFound error path: when the id is absent the map
is the identity and the unchanged collection is still written back. -/
def saveCaption (pid caption : String) (photos : List Photo) : UpdateRun :=
  { persisted := photos.map (fun p => if p.id = pid then { p with caption := caption } else p)
    wrote := true }

/-- Photo-detail `toggleFavorite` (photo/[id].tsx lines 61-76): same shape as
`saveCaption`; the patch is `favorite: !p.favorite`, where JavaScript `!`
treats an absent `favorite` as `false`, so the new value is always a present
boolean. -/
def toggleFavorite (pid : String) (photos : List Photo) : UpdateRun :=
  { persisted := photos.map (fun p =>
      if p.id = pid then { p with favorite := some (!(p.favorite.getD false)) } else p)
    wrote := true }

/-- Result signal of the gallery `createOrUpdateAlbum` flow, one constructor
per caller-visible alert of the source: missing name, "No New Photos"
(nothing mutated), photos appended to the existing album, or a new album
created. -/
inductive AlbumOpResult where
  | nameRequired
  | noChange
  | appended
  | created
deriving DecidableEq

/-- Post-state of the albums collection together with the result signal. -/
structure AlbumsRun where
  albums : List Album
  result : AlbumOpResult
deriving DecidableEq

/-- The `newAlbum` object literal of gallery `createOrUpdateAlbum`
(gallery.tsx lines 186-192): fresh id, trimmed name, creation timestamp,
the selected photo ids in order, and `coverPhotoId: selectedPhotoIds[0]`
(JavaScript indexing out of range gives `undefined`, hence `head?`). -/
def newAlbum (freshId trimmedName nowIso : String) (selectedPhotoIds : List String) : Album :=
  { id := freshId, name := trimmedName, createdAt := nowIso,
    photoIds := selectedPhotoIds, coverPhotoId := selectedPhotoIds.head? }

/-- The updated-album object literal of gallery `createOrUpdateAlbum`
(gallery.tsx lines 172-176): the spread keeps all other fields, the new
photo ids are appended, and
`coverPhotoId: existingAlbum.coverPhotoId || newPhotoIds[0]` sets the cover
only when the existing one is falsy. -/
def appendedAlbum (existingAlbum : Album) (newPhotoIds : List String) : Album :=
  { existingAlbum with
    photoIds := existingAlbum.photoIds ++ newPhotoIds
    coverPhotoId := jsOr existingAlbum.coverPhotoId newPhotoIds.head? }

/-- Gallery `createOrUpdateAlbum` (gallery.tsx lines 146-215). An empty
trimmed name aborts. Otherwise `findIndex` looks up the first album whose
lowercased name equals the lowercased trimmed name. On a hit, the photo ids
not already in that album are computed; if none, the operation alerts
"No New Photos" and returns without saving; otherwise the album at that
index is replaced by a copy with the new ids appended and
`coverPhotoId: existingAlbum.coverPhotoId || newPhotoIds[0]`. On a miss a
new album is pushed with the trimmed name, the given ids in order, and
`coverPhotoId: selectedPhotoIds[0]`. `freshId` and `nowIso` stand for the
generated `Date.now()+random` id and `new Date().toISOString()`. -/
def createOrUpdateAlbum (freshId nowIso : String) (albumName : String)
    (selectedPhotoIds : List String) (albums : List Album) : AlbumsRun :=
  if jsTrim albumName = "" then
    { albums := albums, result := .nameRequired }
  else
    let trimmedName := jsTrim albumName
    match jsFindIndex (fun album => jsToLower album.name == jsToLower trimmedName) albums with
    | some existingAlbumIndex =>
      match albums[existingAlbumIndex]? with
      | some existingAlbum =>
        let newPhotoIds :=
          selectedPhotoIds.filter (fun id => !(existingAlbum.photoIds.contains id))
        if newPhotoIds.length = 0 then
          { albums := albums, result := .noChange }
        else
          { albums := albums.set existingAlbumIndex (appendedAlbum existingAlbum newPhotoIds)
            result := .appended }
      | none => { albums := albums, result := .noChange }
    | none =>
      { albums := albums ++ [newAlbum freshId trimmedName nowIso selectedPhotoIds]
        result := .created }

/-- Result signal of the albums-screen create-album handler. -/
inductive CreateAlbumResult where
  | missingInfo
  | created
deriving DecidableEq

/-- Albums-screen create-album onPress (AlbumsScreen in photo/[id].tsx,
lines 993-1009): requires a nonempty trimmed name and at least one selected
photo, then appends `newAlbum` to the albums collection with no
duplicate-name check of any kind. -/
def albumsScreenCreateAlbum (nowId : String) (newAlbumName : String)
    (selectedPhotoIds : List String) (albums : List AppAlbum) :
    List AppAlbum × CreateAlbumResult :=
  let trimmed := jsTrim newAlbumName
  if trimmed = "" ∨ selectedPhotoIds.length = 0 then
    (albums, .missingInfo)
  else
    (albums ++ [{ id := nowId, name := trimmed, photoIds := selectedPhotoIds }], .created)

/-- Albums-screen `getPhotosForAlbum` (photo/[id].tsx lines 883-885):
`photos.filter(photo => album.photoIds.includes(photo.id))` — a filter over
the photos collection. -/
def getPhotosForAlbum (photos : List Photo) (album : AppAlbum) : List Photo :=
  photos.filter (fun photo => album.photoIds.contains photo.id)

/-- Outcome of a JavaScript step that may throw: either a value or a thrown
exception. -/
inductive JsResult (α : Type) where
  | ok (value : α)
  | thrown
deriving DecidableEq

/-- Gallery `loadPhotos` (gallery.tsx lines 69-77): inside `try`, reads the
`photos` key (`read` is the `AsyncStorage.getItem` outcome: a stored string
or `null`) and computes `stored ? JSON.parse(stored) : []` (`parse` is the
`JSON.parse` outcome on the stored string); `setAllPhotos` publishes the
result. The `catch` only logs, so on a read or parse exception the previous
state — `[]` on the initial load — stays in place. The gallery `loadAlbums`
(lines 79-87) has the identical shape for the `albums` key. -/
def loadPhotos (prev : List Photo) (read : JsResult (Option String))
    (parse : String → JsResult (List Photo)) : List Photo :=
  match read with
  | .thrown => prev
  | .ok none => []
  | .ok (some stored) =>
    match parse stored with
    | .thrown => prev
    | .ok parsed => parsed

/-- Photo-detail load effect (photo/[id].tsx lines 29-40): reads the
`photos` key, computes `stored ? JSON.parse(stored) : []` and looks up the
routed id. The async body has no try/catch, so a read or parse exception
escapes the effect as a rejected promise (`thrown`) and no state is set. -/
def loadPhotoDetail (pid : String) (read : JsResult (Option String))
    (parse : String → JsResult (List Photo)) : JsResult (Option Photo) :=
  match read with
  | .thrown => .thrown
  | .ok none => .ok (([] : List Photo).find? (fun p => p.id == pid))
  | .ok (some stored) =>
    match parse stored with
    | .thrown => .thrown
    | .ok photos => .ok (photos.find? (fun p => p.id == pid))

/-- Sample photo record with id `a`, used as a concrete input. -/
def photoA : Photo :=
  { id := "a", uri := "file-a", createdAt := "t1", caption := "", favorite := some false }

/-- Sample photo record with id `b`, used as a concrete input. -/
def photoB : Photo :=
  { id := "b", uri := "file-b", createdAt := "t2", caption := "", favorite := some false }

/-- Sample album holding photos `a` and `b` with cover `a` (the album of the
spec's first delete scenario). -/
def albumTripAB : Album :=
  { id := "1", name := "Trip", createdAt := "t0", photoIds := ["a", "b"], coverPhotoId := some "a" }

/-- Sample album holding only photo `a` with cover `a` (the album of the
spec's second delete scenario). -/
def albumTripA : Album :=
  { id := "1", name := "Trip", createdAt := "t0", photoIds := ["a"], coverPhotoId := some "a" }

/-- Sample album with no cover photo, used as a concrete input. -/
def albumNoCover : Album :=
  { id := "9", name := "Trip", createdAt := "t0", photoIds := ["p1"], coverPhotoId := none }

theorem jsFindIndex_eq_none_iff {α : Type} (p : α → Bool) (l : List α) :
    jsFindIndex p l = none ↔ ∀ a ∈ l, p a = false := by
  induction l with
  | nil => simp [jsFindIndex]
  | cons a t ih =>
    by_cases h : p a
    · simp [jsFindIndex, h]
    · simp [jsFindIndex, h, ih, eq_false_of_ne_true h]

theorem jsFindIndex_concat (p : α → Bool) (l : List α) (x : α)
    (h : ∀ a ∈ l, p a = false) :
    jsFindIndex p (l ++ [x]) = if p x then some l.length else none := by
  induction l with
  | nil => simp [jsFindIndex]
  | cons a t ih =>
    have ha : p a = false := h a (by simp)
    have ht : ∀ b ∈ t, p b = false := fun b hb => h b (by simp [hb])
    by_cases hx : p x <;> simp [jsFindIndex, ha, ih ht, hx]

theorem jsFindIndex_some {α : Type} (p : α → Bool) (l : List α) (i : Nat)
    (h : jsFindIndex p l = some i) : ∃ a, l[i]? = some a ∧ p a = true := by
  induction l generalizing i with
  | nil => simp [jsFindIndex] at h
  | cons a t ih =>
    by_cases ha : p a
    · simp [jsFindIndex, ha] at h
      subst h
      exact ⟨a, by simp, ha⟩
    · simp [jsFindIndex, ha] at h
      obtain ⟨j, hj, rfl⟩ := h
      obtain ⟨b, hb, hpb⟩ := ih j hj
      exact ⟨b, by simpa using hb, hpb⟩

theorem jsFindIndex_set {α : Type} (p : α → Bool) (l : List α) (i : Nat) (a' : α)
    (h : jsFindIndex p l = some i) (h' : p a' = true) :
    jsFindIndex p (l.set i a') = some i := by
  induction l generalizing i with
  | nil => simp [jsFindIndex] at h
  | cons a t ih =>
    by_cases ha : p a
    · simp [jsFindIndex, ha] at h
      subst h
      simp [jsFindIndex, h']
    · simp [jsFindIndex, ha] at h
      obtain ⟨j, hj, rfl⟩ := h
      simp [List.set, jsFindIndex, ha, ih j hj]

theorem set_concat_length {α : Type} (l : List α) (x y : α) :
    (l ++ [x]).set l.length y = l ++ [y] := by
  induction l with
  | nil => rfl
  | cons a t ih => simp [List.set, ih]

theorem getElem?_concat_len {α : Type} (l : List α) (x : α) :
    (l ++ [x])[l.length]? = some x := by
  induction l with
  | nil => rfl
  | cons a t ih => simp [ih]

theorem getElem?_set_of_lt {α : Type} (l : List α) (i : Nat) (a : α) (h : i < l.length) :
    (l.set i a)[i]? = some a := by
  induction l generalizing i with
  | nil => simp at h
  | cons b t ih =>
    cases i with
    | zero => simp
    | succ j => simpa using ih j (by simpa using h)

theorem lt_length_of_getElem?_eq_some {α : Type} (l : List α) (i : Nat) (a : α)
    (h : l[i]? = some a) : i < l.length := by
  by_contra hge
  rw [List.getElem?_eq_none (by omega)] at h
  exact Option.noConfusion h

theorem find?_eq_head?_filter {α : Type} (p : α → Bool) (l : List α) :
    l.find? p = (l.filter p).head? := by
  induction l with
  | nil => rfl
  | cons a t ih =>
    by_cases h : p a
    · rw [List.find?_cons_of_pos _ h, List.filter_cons_of_pos h]
      rfl
    · rw [List.find?_cons_of_neg _ (by simpa using h),
        List.filter_cons_of_neg (by simpa using h), ih]

/-- C1 counterexample: the photo-detail `deletePhoto` does not cascade into
albums: after deleting photo `a` the photos collection is empty, but the
albums collection is untouched and the remaining album still holds `"a"` in
its `photoIds`, so the referential-integrity post-condition fails for that
DeletePhoto implementation. -/
theorem c1_detail_delete_counterexample :
    (deletePhotoDetail "a" [photoA] [albumTripA]).1 = [] ∧
    (deletePhotoDetail "a" [photoA] [albumTripA]).2 = [albumTripA] ∧
    "a" ∈ albumTripA.photoIds := by decide

/-- C1 (amended): after the gallery cascade delete (`deleteSelected`), no
album remaining in the albums collection has any deleted id among its
`photoIds` — the referential-integrity post-condition holds on that path. -/
theorem c1_gallery_cascade_integrity (deletedIds : List String) (albums : List Album) :
    ∀ album ∈ deleteSelectedAlbums deletedIds albums,
      ∀ pid ∈ deletedIds, pid ∉ album.photoIds := by
  intro album hmem pid hdel hin
  obtain ⟨hmem', -⟩ := List.mem_filter.mp hmem
  obtain ⟨orig, -, rfl⟩ := List.mem_map.mp hmem'
  simp only [cascadeAlbum, List.mem_filter] at hin
  have := hin.2
  simp at this
  exact this hdel

/-- C1 witness: the cascade-integrity theorem applied to the concrete
one-album collection of the spec scenario. -/
theorem c1_gallery_cascade_integrity_witness :
    "a" ∉ ({ id := "1", name := "Trip", createdAt := "t0", photoIds := ["b"],
             coverPhotoId := some "b" } : Album).photoIds :=
  c1_gallery_cascade_integrity ["a"] [albumTripAB]
    { id := "1", name := "Trip", createdAt := "t0", photoIds := ["b"], coverPhotoId := some "b" }
    (by decide) "a" (by decide)

/-- C4 counterexample: with the photos collection stored in order `[b, a]`
and the album's `photoIds` in order `["a", "b"]`, `getPhotosForAlbum`
returns the records in photo-collection order `[b, a]`, not in `photoIds`
order `[a, b]` as the claim states. -/
theorem c4_order_counterexample :
    getPhotosForAlbum [photoB, photoA] { id := "1", name := "Trip", photoIds := ["a", "b"] } =
      [photoB, photoA] ∧
    ([photoB, photoA] : List Photo) ≠ [photoA, photoB] := by decide

/-- C4 (amended): `getPhotosForAlbum` returns exactly the photo records
whose id appears in the album's `photoIds`, in photo-collection order (the
result is a sublist of the photos collection), and an id with no matching
photo record is silently skipped rather than surfaced: appending a dangling
id to `photoIds` leaves the result unchanged. -/
theorem c4_album_projection (photos : List Photo) (album : AppAlbum) :
    List.Sublist (getPhotosForAlbum photos album) photos ∧
    (∀ p, p ∈ getPhotosForAlbum photos album ↔ p ∈ photos ∧ p.id ∈ album.photoIds) ∧
    (∀ badId, badId ∉ photos.map Photo.id →
      getPhotosForAlbum photos { album with photoIds := album.photoIds ++ [badId] } =
        getPhotosForAlbum photos album) := by
  refine ⟨List.filter_sublist _, fun p => ?_, fun badId hbad => ?_⟩
  · simp [getPhotosForAlbum, List.mem_filter]
  · unfold getPhotosForAlbum
    apply List.filter_congr
    intro p hp
    have hne : p.id ≠ badId := fun h => hbad (h ▸ List.mem_map_of_mem Photo.id hp)
    simp [hne]

/-- C4 witness: a dangling id appended to the album leaves the projection
unchanged, at a concrete input. -/
theorem c4_album_projection_witness :
    getPhotosForAlbum [photoB, photoA]
        { id := "1", name := "Trip", photoIds := ["a", "b"] ++ ["zzz"] } =
      getPhotosForAlbum [photoB, photoA] { id := "1", name := "Trip", photoIds := ["a", "b"] } :=
  (c4_album_projection [photoB, photoA]
    { id := "1", name := "Trip", photoIds := ["a", "b"] }).2.2 "zzz" (by decide)

/-- C5 counterexample: updating the caption of an id absent from the photos
collection does not abort without writing and does not fail: the source
unconditionally issues the store write (of the unchanged collection) and
reports success; no NotFound outcome exists in the code. -/
theorem c5_counterexample :
    (saveCaption "a" "hello" []).wrote = true ∧
    (saveCaption "a" "hello" []).persisted = [] := by decide

/-- C5 (amended): for an id not present in the photos collection, the
caption and favorite updates leave the persisted collection semantically
exactly what it was before the call — but the operation does not fail with
NotFound: it performs the (identity) write and reports success. -/
theorem c5_absent_id_writes_unchanged (pid c : String) (photos : List Photo)
    (habs : pid ∉ photos.map Photo.id) :
    (saveCaption pid c photos).persisted = photos ∧
    (saveCaption pid c photos).wrote = true ∧
    (toggleFavorite pid photos).persisted = photos ∧
    (toggleFavorite pid photos).wrote = true := by
  have hne : ∀ p ∈ photos, p.id ≠ pid := by
    intro p hp h
    exact habs (h ▸ List.mem_map_of_mem Photo.id hp)
  have key : ∀ g : Photo → Photo, (∀ p ∈ photos, g p = p) → photos.map g = photos := by
    intro g hg
    calc photos.map g = photos.map id := List.map_congr_left (fun a ha => by simp [hg a ha])
    _ = photos := photos.map_id
  refine ⟨key _ ?_, rfl, key _ ?_, rfl⟩ <;>
    exact fun p hp => by simp [hne p hp]

/-- C5 witness: the amended update-miss theorem at a concrete input. -/
theorem c5_absent_id_writes_unchanged_witness :
    (saveCaption "zzz" "hello" [photoA]).persisted = [photoA] ∧
    (saveCaption "zzz" "hello" [photoA]).wrote = true ∧
    (toggleFavorite "zzz" [photoA]).persisted = [photoA] ∧
    (toggleFavorite "zzz" [photoA]).wrote = true :=
  c5_absent_id_writes_unchanged "zzz" "hello" [photoA] (by decide)

/-- C6: the caption and favorite updates preserve the collection's length
and order, leave every record whose id differs from the target unchanged,
apply exactly the intended patch (caption replaced, or favorite toggled
with an absent flag treated as false) to every record with the matching id,
and never change a record's id. -/
theorem c6_update_frame (pid c : String) (photos : List Photo) :
    (saveCaption pid c photos).persisted.length = photos.length ∧
    (toggleFavorite pid photos).persisted.length = photos.length ∧
    (∀ (i : Nat) (p : Photo), photos[i]? = some p →
      (saveCaption pid c photos).persisted[i]? =
        some (if p.id = pid then { p with caption := c } else p) ∧
      (toggleFavorite pid photos).persisted[i]? =
        some (if p.id = pid then { p with favorite := some (!(p.favorite.getD false)) } else p)) ∧
    (∀ i : Nat, ((saveCaption pid c photos).persisted[i]?).map Photo.id = (photos[i]?).map Photo.id ∧
      ((toggleFavorite pid photos).persisted[i]?).map Photo.id = (photos[i]?).map Photo.id) := by
  refine ⟨by simp [saveCaption], by simp [toggleFavorite], fun i p h => ?_, fun i => ?_⟩
  · constructor <;> simp [saveCaption, toggleFavorite, List.getElem?_map, h]
  · constructor <;>
    · simp only [saveCaption, toggleFavorite, List.getElem?_map]
      cases photos[i]? with
      | none => rfl
      | some p => by_cases h : p.id = pid <;> simp [h]

/-- C6 witness: the frame theorem applied to a concrete singleton
collection at index 0. -/
theorem c6_update_frame_witness :
    (saveCaption "a" "hi" [photoA]).persisted[0]? =
      some (if photoA.id = "a" then { photoA with caption := "hi" } else photoA) ∧
    (toggleFavorite "a" [photoA]).persisted[0]? =
      some (if photoA.id = "a" then
        { photoA with favorite := some (!(photoA.favorite.getD false)) } else photoA) :=
  (c6_update_frame "a" "hi" [photoA]).2.2.1 0 photoA (by decide)

/-- C7 counterexample: the photo-detail load effect has no try/catch: when
the stored `photos` value cannot be parsed, the exception escapes the
effect as a rejected promise — the caller-visible result is the propagated
failure, not the empty collection. -/
theorem c7_detail_load_counterexample :
    loadPhotoDetail "a" (.ok (some "not-json")) (fun _ => .thrown) = .thrown ∧
    (JsResult.thrown : JsResult (Option Photo)) ≠ .ok none :=
  ⟨rfl, by decide⟩

/-- C7 (amended): the gallery loads implement the degraded-mode policy: a
store read failure, a missing stored value, and an unparsable stored value
all leave the caller-visible photos collection empty on the initial load,
and no failure is propagated. The photo-detail load effect lacks this
handling (see the counterexample). -/
theorem c7_gallery_load_empty_on_failure (parse : String → JsResult (List Photo)) (s : String) :
    loadPhotos [] .thrown parse = [] ∧
    loadPhotos [] (.ok none) parse = [] ∧
    (parse s = .thrown → loadPhotos [] (.ok (some s)) parse = []) := by
  refine ⟨rfl, rfl, fun h => ?_⟩
  simp [loadPhotos, h]

/-- C7 witness: the gallery degraded-mode theorem at a concrete corrupt
store. -/
theorem c7_gallery_load_empty_on_failure_witness :
    loadPhotos [] (.ok (some "not-json")) (fun _ => .thrown) = [] :=
  (c7_gallery_load_empty_on_failure (fun _ => .thrown) "not-json").2.2 rfl

/-- C8: `savePhoto` appends the new record, growing the photos collection by
exactly one, and a subsequent DeletePhoto of the same (fresh) id returns the
photos collection to its prior state, the albums collection untouched. -/
theorem c8_add_delete_roundtrip (p : Photo) (photos : List Photo) (albums : List Album)
    (hfresh : p.id ∉ photos.map Photo.id) :
    (savePhoto p photos).length = photos.length + 1 ∧
    deletePhotoDetail p.id (savePhoto p photos) albums = (photos, albums) := by
  refine ⟨by simp [savePhoto], ?_⟩
  have hne : ∀ q ∈ photos, (q.id != p.id) = true := by
    intro q hq
    have h : q.id ≠ p.id := fun h => hfresh (h ▸ List.mem_map_of_mem Photo.id hq)
    simpa using h
  have h1 : (photos ++ [p]).filter (fun q => q.id != p.id) = photos := by
    rw [List.filter_append, List.filter_eq_self.mpr hne]
    simp
  simp [deletePhotoDetail, savePhoto, h1]

/-- C8 witness: the add/delete round trip at a concrete fresh photo. -/
theorem c8_add_delete_roundtrip_witness :
    (savePhoto photoB [photoA]).length = 2 ∧
    deletePhotoDetail photoB.id (savePhoto photoB [photoA]) [albumTripA] =
      ([photoA], [albumTripA]) :=
  c8_add_delete_roundtrip photoB [photoA] [albumTripA] (by decide)

/-- C2: in the gallery cascade delete, for any album that referenced the
deleted id whose `coverPhotoId` equalled that id, the new `coverPhotoId` is
the first remaining id of the album's `photoIds` (cleared when none remain),
for the nonempty photo ids this app generates; every album whose `photoIds`
becomes empty is removed from the collection; and both spec scenarios hold:
deleting `a` from the album `[a, b]` with cover `a` yields `photoIds [b]`
with cover `b`, and deleting `a` from the album `[a]` removes the album. -/
theorem c2_cover_reassignment_and_removal :
    (∀ (pid : String) (album : Album), pid ∈ album.photoIds →
      (∀ i ∈ album.photoIds, i ≠ "") →
      album.coverPhotoId = some pid →
      (cascadeAlbum [pid] album).coverPhotoId = (cascadeAlbum [pid] album).photoIds.head?) ∧
    (∀ (deletedIds : List String) (albums : List Album),
      ∀ a ∈ deleteSelectedAlbums deletedIds albums, a.photoIds ≠ []) ∧
    deleteSelectedAlbums ["a"] [albumTripAB] =
      [{ id := "1", name := "Trip", createdAt := "t0", photoIds := ["b"],
         coverPhotoId := some "b" }] ∧
    deleteSelectedAlbums ["a"] [albumTripA] = [] := by
  refine ⟨fun pid album hmem hids hcov => ?_, fun deletedIds albums a ha => ?_, by decide, by decide⟩
  · simp only [cascadeAlbum, hcov]
    have htrig : ([pid].contains ((some pid).getD "")) = true := by simp
    rw [if_pos htrig, find?_eq_head?_filter]
    cases hf : album.photoIds.filter (fun i => !([pid].contains i)) with
    | nil => simp [hf, jsOrUndefined, jsTruthy]
    | cons s t =>
      have hs : s ∈ album.photoIds := by
        have : s ∈ album.photoIds.filter (fun i => !([pid].contains i)) := by
          rw [hf]; exact List.mem_cons_self s t
        exact (List.mem_filter.mp this).1
      have hsne : s ≠ "" := hids s hs
      simp [hf, jsOrUndefined, jsTruthy, hsne]
  · have hp := (List.mem_filter.mp ha).2
    simp only [decide_eq_true_eq] at hp
    exact List.ne_nil_of_length_pos hp

/-- C2 witness: the cover-reassignment part applied to the spec's concrete
scenario album. -/
theorem c2_cover_reassignment_and_removal_witness :
    (cascadeAlbum ["a"] albumTripAB).coverPhotoId =
      (cascadeAlbum ["a"] albumTripAB).photoIds.head? :=
  c2_cover_reassignment_and_removal.1 "a" albumTripAB (by decide) (by decide) (by decide)

/-- C10: when `createOrUpdateAlbum` appends photos to an existing album
(the first case-insensitive name match, at index `i`), the operation reports
`appended`, the album's `photoIds` gains exactly the not-yet-present ids,
and: an unset `coverPhotoId` is set to the first newly appended photo id,
while a set (nonempty) `coverPhotoId` is left unchanged — appending never
replaces an existing cover photo. -/
theorem c10_cover_on_append (freshId nowIso albumName : String) (ps : List String)
    (albums : List Album) (i : Nat) (ex : Album)
    (hname : jsTrim albumName ≠ "")
    (hfind : jsFindIndex (fun a => jsToLower a.name == jsToLower (jsTrim albumName)) albums = some i)
    (hget : albums[i]? = some ex)
    (hnew : ps.filter (fun id => !(ex.photoIds.contains id)) ≠ []) :
    ∃ firstNew rest, ps.filter (fun id => !(ex.photoIds.contains id)) = firstNew :: rest ∧
      ∃ updated,
        (createOrUpdateAlbum freshId nowIso albumName ps albums).albums[i]? = some updated ∧
        (createOrUpdateAlbum freshId nowIso albumName ps albums).result = .appended ∧
        updated.photoIds = ex.photoIds ++ ps.filter (fun id => !(ex.photoIds.contains id)) ∧
        (ex.coverPhotoId = none → updated.coverPhotoId = some firstNew) ∧
        (∀ cov, ex.coverPhotoId = some cov → cov ≠ "" → updated.coverPhotoId = some cov) := by
  obtain ⟨firstNew, rest, hcons⟩ := List.exists_cons_of_ne_nil hnew
  refine ⟨firstNew, rest, hcons, ?_⟩
  have hlen : (ps.filter (fun id => !(ex.photoIds.contains id))).length ≠ 0 := by
    rw [hcons]
    exact Nat.succ_ne_zero rest.length
  have hlt : i < albums.length := lt_length_of_getElem?_eq_some albums i ex hget
  have hrun : createOrUpdateAlbum freshId nowIso albumName ps albums =
      { albums := albums.set i
          (appendedAlbum ex (ps.filter (fun id => !(ex.photoIds.contains id))))
        result := .appended } := by
    simp only [createOrUpdateAlbum, if_neg hname, hfind, hget, if_neg hlen]
  rw [hrun]
  refine ⟨_, getElem?_set_of_lt albums i _ hlt, rfl, rfl, ?_, ?_⟩
  · intro hnone
    simp only [appendedAlbum, hnone, hcons]
    simp [jsOr, jsTruthy]
  · intro cov hcov hne
    simp only [appendedAlbum, hcov]
    simp [jsOr, jsTruthy, hne]

/-- C10 witness: appending `p2` to a concrete cover-less album sets the
cover to `p2`. -/
theorem c10_cover_on_append_witness :
    ∃ firstNew rest,
      (["p2"].filter (fun id => !(albumNoCover.photoIds.contains id))) = firstNew :: rest ∧
      ∃ updated,
        (createOrUpdateAlbum "f" "t" "Trip" ["p2"] [albumNoCover]).albums[0]? = some updated ∧
        (createOrUpdateAlbum "f" "t" "Trip" ["p2"] [albumNoCover]).result = .appended ∧
        updated.photoIds = albumNoCover.photoIds ++
          ["p2"].filter (fun id => !(albumNoCover.photoIds.contains id)) ∧
        (albumNoCover.coverPhotoId = none → updated.coverPhotoId = some firstNew) ∧
        (∀ cov, albumNoCover.coverPhotoId = some cov → cov ≠ "" →
          updated.coverPhotoId = some cov) :=
  c10_cover_on_append "f" "t" "Trip" ["p2"] [albumNoCover] 0 albumNoCover
    (by decide) (by decide) (by decide) (by decide)

/-- C9: calling the gallery `createOrUpdateAlbum` twice with the same
(nonempty-after-trim) name and photo-id list leaves the albums collection
after the second call identical to the collection after the first call, and
the second call reports `noChange` — an informational signal, not an error —
without mutating any collection. -/
theorem c9_create_or_append_idempotent (freshId nowIso freshId2 nowIso2 albumName : String)
    (ps : List String) (albums : List Album) (hname : jsTrim albumName ≠ "") :
    (createOrUpdateAlbum freshId2 nowIso2 albumName ps
        (createOrUpdateAlbum freshId nowIso albumName ps albums).albums).albums =
      (createOrUpdateAlbum freshId nowIso albumName ps albums).albums ∧
    (createOrUpdateAlbum freshId2 nowIso2 albumName ps
        (createOrUpdateAlbum freshId nowIso albumName ps albums).albums).result =
      AlbumOpResult.noChange := by
  cases h1 : jsFindIndex
      (fun album : Album => jsToLower album.name == jsToLower (jsTrim albumName)) albums with
  | none =>
    have hall := (jsFindIndex_eq_none_iff _ albums).mp h1
    have hr1 : createOrUpdateAlbum freshId nowIso albumName ps albums =
        { albums := albums ++ [newAlbum freshId (jsTrim albumName) nowIso ps]
          result := .created } := by
      simp only [createOrUpdateAlbum, if_neg hname, h1]
    have hfind2 : jsFindIndex
        (fun album : Album => jsToLower album.name == jsToLower (jsTrim albumName))
        (albums ++ [newAlbum freshId (jsTrim albumName) nowIso ps]) = some albums.length := by
      rw [jsFindIndex_concat _ _ _ hall]
      simp [newAlbum]
    have hget2 : (albums ++ [newAlbum freshId (jsTrim albumName) nowIso ps])[albums.length]? =
        some (newAlbum freshId (jsTrim albumName) nowIso ps) :=
      getElem?_concat_len _ _
    have hnil : ps.filter (fun id => !((newAlbum freshId (jsTrim albumName) nowIso ps).photoIds.contains id)) = [] := by
      rw [List.filter_eq_nil_iff]
      intro x hx
      simp [newAlbum, hx]
    have hr2 : createOrUpdateAlbum freshId2 nowIso2 albumName ps
        (albums ++ [newAlbum freshId (jsTrim albumName) nowIso ps]) =
        { albums := albums ++ [newAlbum freshId (jsTrim albumName) nowIso ps]
          result := .noChange } := by
      simp only [createOrUpdateAlbum, if_neg hname, hfind2, hget2, hnil, List.length_nil,
        if_pos]
    rw [hr1, hr2]
    exact ⟨rfl, rfl⟩
  | some i =>
    obtain ⟨ex, hget, hpex⟩ := jsFindIndex_some _ albums i h1
    by_cases hni : (ps.filter (fun id => !(ex.photoIds.contains id))).length = 0
    · have hr1 : createOrUpdateAlbum freshId nowIso albumName ps albums =
          { albums := albums, result := .noChange } := by
        simp only [createOrUpdateAlbum, if_neg hname, h1, hget, if_pos hni]
      have hr2 : createOrUpdateAlbum freshId2 nowIso2 albumName ps albums =
          { albums := albums, result := .noChange } := by
        simp only [createOrUpdateAlbum, if_neg hname, h1, hget, if_pos hni]
      rw [hr1, hr2]
      exact ⟨rfl, rfl⟩
    · have hfil : ps.filter (fun id => !(ex.photoIds.contains id)) ≠ [] := by
        intro h
        exact hni (by rw [h]; rfl)
      have hr1 : createOrUpdateAlbum freshId nowIso albumName ps albums =
          { albums := albums.set i
              (appendedAlbum ex (ps.filter (fun id => !(ex.photoIds.contains id))))
            result := .appended } := by
        simp only [createOrUpdateAlbum, if_neg hname, h1, hget, if_neg hni]
      have hpex' : (fun album : Album =>
          jsToLower album.name == jsToLower (jsTrim albumName))
          (appendedAlbum ex (ps.filter (fun id => !(ex.photoIds.contains id)))) = true := by
        simpa [appendedAlbum] using hpex
      have hfind2 : jsFindIndex
          (fun album : Album => jsToLower album.name == jsToLower (jsTrim albumName))
          (albums.set i
            (appendedAlbum ex (ps.filter (fun id => !(ex.photoIds.contains id))))) = some i :=
        jsFindIndex_set _ albums i _ h1 hpex'
      have hlt : i < albums.length := lt_length_of_getElem?_eq_some albums i ex hget
      have hget2 : (albums.set i
          (appendedAlbum ex (ps.filter (fun id => !(ex.photoIds.contains id)))))[i]? =
          some (appendedAlbum ex (ps.filter (fun id => !(ex.photoIds.contains id)))) :=
        getElem?_set_of_lt albums i _ hlt
      have hnil : ps.filter (fun id =>
          !((appendedAlbum ex (ps.filter (fun id => !(ex.photoIds.contains id)))).photoIds.contains id)) = [] := by
        rw [List.filter_eq_nil_iff]
        intro x hx
        simp only [appendedAlbum, Bool.not_eq_true', Bool.not_eq_false]
        by_cases hmem : x ∈ ex.photoIds
        · simp [hmem]
        · simp [List.mem_filter, hx, hmem]
      have hr2 : createOrUpdateAlbum freshId2 nowIso2 albumName ps
          (albums.set i
            (appendedAlbum ex (ps.filter (fun id => !(ex.photoIds.contains id))))) =
          { albums := albums.set i
              (appendedAlbum ex (ps.filter (fun id => !(ex.photoIds.contains id))))
            result := .noChange } := by
        simp only [createOrUpdateAlbum, if_neg hname, hfind2, hget2, hnil, List.length_nil,
          if_pos]
      rw [hr1, hr2]
      exact ⟨rfl, rfl⟩

/-- C9 witness: creating the album `Trip` twice with the same photo list —
the second call changes nothing and reports `noChange`. -/
theorem c9_create_or_append_idempotent_witness :
    (createOrUpdateAlbum "f2" "t2" "Trip" ["p1"]
        (createOrUpdateAlbum "f1" "t1" "Trip" ["p1"] []).albums).albums =
      (createOrUpdateAlbum "f1" "t1" "Trip" ["p1"] []).albums ∧
    (createOrUpdateAlbum "f2" "t2" "Trip" ["p1"]
        (createOrUpdateAlbum "f1" "t1" "Trip" ["p1"] []).albums).result =
      AlbumOpResult.noChange :=
  c9_create_or_append_idempotent "f1" "t1" "f2" "t2" "Trip" ["p1"] [] (by decide)

/-- C3 counterexample: the albums-screen create-album path appends with no
name check: creating `trip` while `Trip` already exists yields two albums
whose names are case-insensitively equal — a duplicate album, so the claim
that a case-matching create never duplicates fails on that code path. -/
theorem c3_albums_screen_duplicate_counterexample :
    (albumsScreenCreateAlbum "2" "trip" ["p2"]
      [{ id := "1", name := "Trip", photoIds := ["p1"] }]).2 = CreateAlbumResult.created ∧
    ((albumsScreenCreateAlbum "2" "trip" ["p2"]
      [{ id := "1", name := "Trip", photoIds := ["p1"] }]).1.map
        (fun a => jsToLower a.name)) = ["trip", "trip"] ∧
    (albumsScreenCreateAlbum "2" "trip" ["p2"]
      [{ id := "1", name := "Trip", photoIds := ["p1"] }]).1.length = 2 := by
  decide

/-- C3 (amended): the gallery Coordinator's `createOrUpdateAlbum` does
satisfy the claim: on a collection with no album case-insensitively named
`n1`, creating with `n1, ps1` and then with a case-equal `n2, ps2` leaves
the album count of the first call unchanged, exactly one album carries that
name (case-insensitively), and that album's `photoIds` contains every id of
`ps1` and of `ps2`. The albums-screen create-album path violates the
original universal claim (see the counterexample). -/
theorem c3_case_insensitive_merge
    (freshId nowIso freshId2 nowIso2 n1 n2 : String) (ps1 ps2 : List String)
    (albums : List Album)
    (h1 : jsTrim n1 ≠ "") (h2 : jsTrim n2 ≠ "")
    (hmatch : jsToLower (jsTrim n2) = jsToLower (jsTrim n1))
    (hfresh : ∀ a ∈ albums, jsToLower a.name ≠ jsToLower (jsTrim n1)) :
    (createOrUpdateAlbum freshId2 nowIso2 n2 ps2
        (createOrUpdateAlbum freshId nowIso n1 ps1 albums).albums).albums.length =
      (createOrUpdateAlbum freshId nowIso n1 ps1 albums).albums.length ∧
    ((createOrUpdateAlbum freshId2 nowIso2 n2 ps2
        (createOrUpdateAlbum freshId nowIso n1 ps1 albums).albums).albums.filter
      (fun a => jsToLower a.name == jsToLower (jsTrim n1))).length = 1 ∧
    ∀ a ∈ (createOrUpdateAlbum freshId2 nowIso2 n2 ps2
        (createOrUpdateAlbum freshId nowIso n1 ps1 albums).albums).albums,
      jsToLower a.name = jsToLower (jsTrim n1) →
      (∀ x ∈ ps1, x ∈ a.photoIds) ∧ (∀ x ∈ ps2, x ∈ a.photoIds) := by
  have hallb : ∀ a ∈ albums,
      (fun album : Album => jsToLower album.name == jsToLower (jsTrim n1)) a = false :=
    fun a ha => by simpa using hfresh a ha
  have hfindA : jsFindIndex
      (fun album : Album => jsToLower album.name == jsToLower (jsTrim n1)) albums = none :=
    (jsFindIndex_eq_none_iff _ _).mpr hallb
  have hr1 : createOrUpdateAlbum freshId nowIso n1 ps1 albums =
      { albums := albums ++ [newAlbum freshId (jsTrim n1) nowIso ps1]
        result := .created } := by
    simp only [createOrUpdateAlbum, if_neg h1, hfindA]
  have hpred2 : (fun album : Album => jsToLower album.name == jsToLower (jsTrim n2)) =
      (fun album : Album => jsToLower album.name == jsToLower (jsTrim n1)) := by
    rw [hmatch]
  have hfind2 : jsFindIndex
      (fun album : Album => jsToLower album.name == jsToLower (jsTrim n2))
      (albums ++ [newAlbum freshId (jsTrim n1) nowIso ps1]) = some albums.length := by
    rw [hpred2, jsFindIndex_concat _ _ _ hallb]
    simp [newAlbum]
  have hget2 := getElem?_concat_len albums (newAlbum freshId (jsTrim n1) nowIso ps1)
  have hfilalb : albums.filter
      (fun a => jsToLower a.name == jsToLower (jsTrim n1)) = [] := by
    rw [List.filter_eq_nil_iff]
    intro a ha
    simp [hallb a ha]
  by_cases hni : (ps2.filter
      (fun id => !((newAlbum freshId (jsTrim n1) nowIso ps1).photoIds.contains id))).length = 0
  · have hr2 : createOrUpdateAlbum freshId2 nowIso2 n2 ps2
        (albums ++ [newAlbum freshId (jsTrim n1) nowIso ps1]) =
        { albums := albums ++ [newAlbum freshId (jsTrim n1) nowIso ps1]
          result := .noChange } := by
      simp only [createOrUpdateAlbum, if_neg h2, hfind2, hget2, if_pos hni]
    have hsub : ∀ x ∈ ps2, x ∈ ps1 := by
      intro x hx
      have hemp := List.length_eq_zero.mp hni
      have := (List.filter_eq_nil_iff.mp hemp) x hx
      simpa [newAlbum] using this
    rw [hr1, hr2]
    refine ⟨rfl, ?_, ?_⟩
    · rw [List.filter_append, hfilalb]
      simp [newAlbum]
    · intro a ha hname
      rcases List.mem_append.mp ha with hin | hin
      · exact absurd hname (hfresh a hin)
      · have : a = newAlbum freshId (jsTrim n1) nowIso ps1 := List.mem_singleton.mp hin
        subst this
        constructor
        · intro x hx
          simpa [newAlbum] using hx
        · intro x hx
          simpa [newAlbum] using hsub x hx
  · have hr2 : createOrUpdateAlbum freshId2 nowIso2 n2 ps2
        (albums ++ [newAlbum freshId (jsTrim n1) nowIso ps1]) =
        { albums := albums ++ [appendedAlbum (newAlbum freshId (jsTrim n1) nowIso ps1)
            (ps2.filter
              (fun id => !((newAlbum freshId (jsTrim n1) nowIso ps1).photoIds.contains id)))]
          result := .appended } := by
      simp only [createOrUpdateAlbum, if_neg h2, hfind2, hget2, if_neg hni]
      rw [set_concat_length]
    rw [hr1, hr2]
    refine ⟨by simp, ?_, ?_⟩
    · rw [List.filter_append, hfilalb]
      simp [appendedAlbum, newAlbum]
    · intro a ha hname
      rcases List.mem_append.mp ha with hin | hin
      · exact absurd hname (hfresh a hin)
      · have ha' : a = appendedAlbum (newAlbum freshId (jsTrim n1) nowIso ps1)
            (ps2.filter
              (fun id => !((newAlbum freshId (jsTrim n1) nowIso ps1).photoIds.contains id))) :=
          List.mem_singleton.mp hin
        subst ha'
        constructor
        · intro x hx
          simp [appendedAlbum, newAlbum, hx]
        · intro x hx
          by_cases hmem : x ∈ ps1
          · simp [appendedAlbum, newAlbum, hmem]
          · simp only [appendedAlbum, newAlbum, List.mem_append]
            right
            simp [List.mem_filter, hx, hmem, newAlbum]

/-- C3 witness: `Trip` then `trip` starting from the empty collection —
one album results, carrying both photo ids. -/
theorem c3_case_insensitive_merge_witness :
    (createOrUpdateAlbum "f2" "t2" "trip" ["p2"]
        (createOrUpdateAlbum "f1" "t1" "Trip" ["p1"] []).albums).albums.length =
      (createOrUpdateAlbum "f1" "t1" "Trip" ["p1"] []).albums.length ∧
    ((createOrUpdateAlbum "f2" "t2" "trip" ["p2"]
        (createOrUpdateAlbum "f1" "t1" "Trip" ["p1"] []).albums).albums.filter
      (fun a => jsToLower a.name == jsToLower (jsTrim "Trip"))).length = 1 ∧
    ∀ a ∈ (createOrUpdateAlbum "f2" "t2" "trip" ["p2"]
        (createOrUpdateAlbum "f1" "t1" "Trip" ["p1"] []).albums).albums,
      jsToLower a.name = jsToLower (jsTrim "Trip") →
      (∀ x ∈ ["p1"], x ∈ a.photoIds) ∧ (∀ x ∈ ["p2"], x ∈ a.photoIds) :=
  c3_case_insensitive_merge "f1" "t1" "f2" "t2" "Trip" "trip" ["p1"] ["p2"] []
    (by decide) (by decide) (by decide) (by decide)

end PhotoApp
